import Mathlib

/-!
Verification development for the quickcommand suggestion pipeline
(`src/ai/command_ai.py`) and the two shell executors
(`src/shells/powershell_handler.py`, `src/shells/python_handler.py`).

Python strings are modelled as Lean `String`s; Python `str.strip`,
`str.lower`, `in` (substring), `str.startswith`, `str.split` are modelled
by executable Lean functions below (defined on the character list so the
kernel can evaluate them).  JSON values decoded by `json.loads` are
modelled by the `Json` inductive; the outcome of the library call
`json.loads` itself (success with a value, or `JSONDecodeError`) is an
explicit parameter (`LoadsResult`), as is the outcome of the network call
(`BackendResult`) and of a subordinate process (`ProcBehavior`).
-/

/-- The whitespace characters stripped by Python `str.strip()` (ASCII set). -/
def isPyWs (c : Char) : Bool :=
  c = ' ' || c = '\t' || c = '\n' || c = '\r' || c = '\x0b' || c = '\x0c'

/-- Remove trailing whitespace from a character list (right side of `str.strip`). -/
def rstripL : List Char → List Char
  | [] => []
  | c :: cs =>
    match rstripL cs with
    | [] => if isPyWs c then [] else [c]
    | r => c :: r

/-- Python `s.strip()`: remove leading and trailing whitespace. -/
def pyStrip (s : String) : String :=
  ⟨rstripL (s.data.dropWhile isPyWs)⟩

/-- `as` is a prefix of `bs` (character lists). -/
def isPrefixL : List Char → List Char → Bool
  | [], _ => true
  | _ :: _, [] => false
  | a :: as, b :: bs => a == b && isPrefixL as bs

/-- Python `s.startswith(pre)`. -/
def pyStartsWith (s pre : String) : Bool :=
  isPrefixL pre.data s.data

/-- `sub` occurs somewhere inside `l` (character lists). -/
def containsL (sub : List Char) : List Char → Bool
  | [] => isPrefixL sub []
  | c :: rest => isPrefixL sub (c :: rest) || containsL sub rest

/-- Python `sub in s`: substring containment. -/
def strContains (s sub : String) : Bool :=
  containsL sub.data s.data

/-- Lower-case an ASCII letter (Python `str.lower` restricted to ASCII). -/
def lowerChar (c : Char) : Char :=
  if 'A' ≤ c ∧ c ≤ 'Z' then Char.ofNat (c.toNat + 32) else c

/-- Python `s.lower()`. -/
def pyLower (s : String) : String :=
  ⟨s.data.map lowerChar⟩

/-- Split a character list at newline characters (Python `s.split('\n')`). -/
def splitNlL : List Char → List (List Char)
  | [] => [[]]
  | c :: cs =>
    match splitNlL cs with
    | [] => [[]]
    | l :: ls => if c = '\n' then [] :: l :: ls else (c :: l) :: ls

/-- Python `s.split('\n')`. -/
def pySplitNl (s : String) : List String :=
  (splitNlL s.data).map (fun l => ⟨l⟩)

/-- A decoded JSON value, as produced by Python `json.loads`. -/
inductive Json where
  | str (s : String)
  | num (n : Int)
  | bool (b : Bool)
  | null
  | arr (elems : List Json)
  | obj (fields : List (String × Json))

/-- Python `dict.get(k, d)` on a decoded JSON object.  `json.loads` keeps the
last value for a duplicated key, so lookup scans from the right. -/
def pyGetD (fields : List (String × Json)) (k : String) (d : Json) : Json :=
  match fields.reverse.find? (fun f => f.1 == k) with
  | some f => f.2
  | none => d

/-- Python `k in dict` on a decoded JSON object. -/
def pyHasKey (fields : List (String × Json)) (k : String) : Bool :=
  fields.any (fun f => f.1 == k)

/-- The suggestion dictionary built by `CommandAI`.  `command` is always a
Python `str` (it is the result of `.strip()`); the other fields are stored
as-is, so they may be arbitrary decoded JSON values. -/
structure Suggestion where
  command : String
  description : Json
  shell : Json
  warning : Json

/-- `dangerous_commands` from `CommandAI._validate_suggestion`. -/
def dangerous_commands : List String :=
  ["rm -rf /", "del /f /s /q", "format", "fdisk"]

/-- The destructive-operation notice written into `warning`. -/
def destructiveWarning : String :=
  "⚠️ This command could be destructive. Please review carefully!"

/-- `CommandAI._validate_suggestion`.  Returns `.error` where the Python code
would raise (calling `.strip()` on a non-string `command` value raises
`AttributeError`); `.ok none` where the code returns `None`. -/
def validate_suggestion (default_shell : String) (j : Json) :
    Except String (Option Suggestion) :=
  match j with
  | Json.obj fields =>
    if pyHasKey fields "command" then
      match pyGetD fields "command" (Json.str "") with
      | Json.str c =>
        let command := pyStrip c
        let warning0 := pyGetD fields "warning" (Json.str "")
        let command_lower := pyLower command
        let warning := dangerous_commands.foldl
          (fun w dangerous =>
            if strContains command_lower dangerous then Json.str destructiveWarning else w)
          warning0
        let result : Suggestion :=
          ⟨command, pyGetD fields "description" (Json.str ""),
           pyGetD fields "shell" (Json.str default_shell), warning⟩
        Except.ok (if command = "" then none else some result)
      | _ => Except.error "AttributeError"
    else Except.ok none
  | _ => Except.ok none

/-- Python `line.split(':', 1)[1]`: everything after the first colon.
Only used on lines that contain a colon. -/
def afterColon (line : String) : String :=
  ⟨(line.data.dropWhile (fun c => c != ':')).drop 1⟩

/-- The `for line in lines` loop of `CommandAI._parse_text_response`,
carrying the `command` and `description` accumulators. -/
def parse_text_loop (command description : String) :
    List String → String × String
  | [] => (command, description)
  | l :: ls =>
    let line := pyStrip l
    if pyStartsWith line "Command:" || pyStartsWith line "command:" then
      parse_text_loop (pyStrip (afterColon line)) description ls
    else if pyStartsWith line "Description:" || pyStartsWith line "description:" then
      parse_text_loop command (pyStrip (afterColon line)) ls
    else if command = "" && line ≠ "" && !pyStartsWith line "#" then
      parse_text_loop line description ls
    else
      parse_text_loop command description ls

/-- `CommandAI._parse_text_response`. -/
def parse_text_response (default_shell content : String) : Option Suggestion :=
  let st := parse_text_loop "" "" (pySplitNl content)
  if st.1 ≠ "" then
    some ⟨st.1, Json.str st.2, Json.str default_shell, Json.str ""⟩
  else
    none

/-- One rule of the static fallback table of
`CommandAI._get_fallback_suggestion`: the tuple of trigger phrases and the
suggestion template (command, description, shell). -/
structure PatternRule where
  triggers : List String
  command : String
  description : String
  shell : String

/-- The `suggestions` dict literal of `CommandAI._get_fallback_suggestion`,
in source order (Python dicts preserve insertion order). -/
def fallback_table : List PatternRule := [
  ⟨["group policy", "gpo", "policy update"],
   "gpupdate /force",
   "Force Group Policy update on local machine", "powershell"⟩,
  ⟨["remote group policy", "remote gpo"],
   "Invoke-GPUpdate -Computer \"ComputerName\" -Force",
   "Force Group Policy update on remote computer", "powershell"⟩,
  ⟨["running services", "active services", "list services"],
   "Get-Service | Where-Object \x7b$_.Status -eq \"Running\"\x7d | Sort-Object Name",
   "List all running services sorted by name", "powershell"⟩,
  ⟨["stopped services", "inactive services"],
   "Get-Service | Where-Object \x7b$_.Status -eq \"Stopped\"\x7d | Sort-Object Name",
   "List all stopped services", "powershell"⟩,
  ⟨["start service", "enable service"],
   "Start-Service -Name \"ServiceName\"",
   "Start a specific service (replace ServiceName)", "powershell"⟩,
  ⟨["stop service", "disable service"],
   "Stop-Service -Name \"ServiceName\"",
   "Stop a specific service (replace ServiceName)", "powershell"⟩,
  ⟨["disk space", "storage", "free space", "drive space"],
   "Get-WmiObject -Class Win32_LogicalDisk | Select-Object DeviceID,@\x7bName=\"Size(GB)\";Expression=\x7b[math]::Round($_.Size/1GB,2)\x7d\x7d,@\x7bName=\"FreeSpace(GB)\";Expression=\x7b[math]::Round($_.FreeSpace/1GB,2)\x7d\x7d,@\x7bName=\"PercentFree\";Expression=\x7b[math]::Round(($_.FreeSpace/$_.Size)*100,2)\x7d\x7d",
   "Show disk space with sizes in GB and percentage free", "powershell"⟩,
  ⟨["c drive", "c: drive", "system drive"],
   "Get-WmiObject -Class Win32_LogicalDisk -Filter \"DeviceID=\x27C:\x27\" | Select-Object Size,FreeSpace",
   "Check C: drive space specifically", "powershell"⟩,
  ⟨["running processes", "process list", "task list"],
   "Get-Process | Sort-Object CPU -Descending | Select-Object -First 20 Name,CPU,WorkingSet,Id",
   "List top 20 processes by CPU usage", "powershell"⟩,
  ⟨["kill process", "stop process", "end process"],
   "Stop-Process -Name \"ProcessName\" -Force",
   "Kill a process by name (replace ProcessName)", "powershell"⟩,
  ⟨["network", "ip config", "network adapter", "network interface"],
   "Get-NetAdapter | Where-Object \x7b$_.Status -eq \"Up\"\x7d | Select-Object Name,InterfaceDescription,LinkSpeed",
   "List active network adapters", "powershell"⟩,
  ⟨["ip address", "ip info"],
   "Get-NetIPAddress | Where-Object \x7b$_.AddressFamily -eq \"IPv4\" -and $_.IPAddress -ne \"127.0.0.1\"\x7d",
   "Show IPv4 addresses (excluding localhost)", "powershell"⟩,
  ⟨["ping", "test connection"],
   "Test-NetConnection -ComputerName \"hostname\" -Port 80",
   "Test network connectivity (replace hostname)", "powershell"⟩,
  ⟨["system info", "computer info", "system details"],
   "Get-ComputerInfo | Select-Object WindowsProductName,WindowsVersion,TotalPhysicalMemory,CsProcessors",
   "Display basic system information", "powershell"⟩,
  ⟨["uptime", "system uptime"],
   "(Get-Date) - (Get-CimInstance Win32_OperatingSystem).LastBootUpTime",
   "Show system uptime", "powershell"⟩,
  ⟨["event log", "system events", "error log"],
   "Get-EventLog -LogName System -Newest 20 | Where-Object \x7b$_.EntryType -eq \"Error\"\x7d",
   "Show latest 20 system errors", "powershell"⟩,
  ⟨["application log", "app events"],
   "Get-EventLog -LogName Application -Newest 20",
   "Show latest 20 application events", "powershell"⟩,
  ⟨["create directory", "new folder", "mkdir", "make directory"],
   "New-Item -ItemType Directory -Name \"NewFolder\"",
   "Create a new directory (replace NewFolder with desired name)", "powershell"⟩,
  ⟨["list files", "directory listing", "ls", "dir"],
   "Get-ChildItem | Sort-Object Name",
   "List files and folders in current directory", "powershell"⟩,
  ⟨["find files", "search files"],
   "Get-ChildItem -Path . -Recurse -Filter \"*.txt\" | Select-Object Name,FullName,Length",
   "Find all .txt files recursively (change *.txt for other types)", "powershell"⟩,
  ⟨["copy files", "copy"],
   "Copy-Item -Path \"source\" -Destination \"destination\" -Recurse",
   "Copy files/folders recursively", "powershell"⟩,
  ⟨["install package", "pip install", "python package"],
   "pip install requests",
   "Install a Python package (replace requests with package name)", "python"⟩,
  ⟨["list packages", "pip list", "installed packages"],
   "pip list",
   "List all installed Python packages", "python"⟩,
  ⟨["web scraping", "scrape web"],
   "pip install requests beautifulsoup4 lxml",
   "Install popular web scraping packages", "python"⟩,
  ⟨["data analysis", "data science"],
   "pip install pandas numpy matplotlib seaborn",
   "Install data analysis packages", "python"⟩,
  ⟨["windows features", "optional features"],
   "Get-WindowsOptionalFeature -Online | Where-Object \x7b$_.State -eq \"Enabled\"\x7d",
   "List enabled Windows optional features", "powershell"⟩,
  ⟨["installed programs", "software list"],
   "Get-WmiObject -Class Win32_Product | Select-Object Name,Version | Sort-Object Name",
   "List installed programs", "powershell"⟩]

/-- The inner `for pattern in patterns` loop: the score of one rule against
the lower-cased request (sum of the lengths of the triggers that occur). -/
def ruleScore (user_lower : String) (r : PatternRule) : Nat :=
  r.triggers.foldl
    (fun s p => if strContains user_lower p then s + p.data.length else s) 0

/-- The outer `for patterns, suggestion in suggestions.items()` loop,
carrying `best_score` and `best_match` (replace on strictly greater score). -/
def bestLoop (user_lower : String) :
    List PatternRule → Nat → Option PatternRule → Nat × Option PatternRule
  | [], b, m => (b, m)
  | r :: rs, b, m =>
    let s := ruleScore user_lower r
    if b < s then bestLoop user_lower rs s (some r) else bestLoop user_lower rs b m

/-- The warning attached to every matched fallback suggestion. -/
def fallbackWarning : String :=
  "Enhanced fallback suggestion - AI service not available"

/-- `CommandAI._get_fallback_suggestion`.  Always returns a record: the best
matching rule's template with the fallback warning, or the placeholder. -/
def get_fallback_suggestion (user_request : String) : Suggestion :=
  match (bestLoop (pyLower user_request) fallback_table 0 none).2 with
  | some r =>
    ⟨r.command, Json.str r.description, Json.str r.shell, Json.str fallbackWarning⟩
  | none =>
    ⟨"# No specific pattern found for: \"" ++ user_request ++ "\"",
     Json.str "Try commands like \"list services\", \"disk space\", \"system info\", or \"network adapters\"",
     Json.str "powershell",
     Json.str "No matching pattern found - try being more specific"⟩

/-- The settings fields `CommandAI` reads on the suggestion path. -/
structure Settings where
  ai_provider : String
  default_shell : String

/-- Outcome of the backend network call (the body of the `try` up to and
including reading `response...content`): either some exception was raised,
or a reply body was received. -/
inductive BackendResult where
  | raised
  | replied (content : String)

/-- Outcome of `json.loads` on the reply: a decoded value or `JSONDecodeError`. -/
inductive LoadsResult where
  | ok (j : Json)
  | decodeError

/-- `CommandAI._parse_ai_response`: structured decoding first; on
`JSONDecodeError` only, the free-text path. -/
def parse_ai_response (default_shell : String) (loads : LoadsResult)
    (content : String) : Except String (Option Suggestion) :=
  match loads with
  | LoadsResult.ok j => validate_suggestion default_shell j
  | LoadsResult.decodeError => Except.ok (parse_text_response default_shell content)

/-- `CommandAI._suggest_with_openai`: everything inside the `try` (network
call, `content.strip()`, parsing, validation) is covered by the
`except Exception` clause, which falls back; a `None` result produced
without an exception is returned as-is. -/
def suggest_with_openai (s : Settings) (backend : BackendResult)
    (loads : LoadsResult) (user_request : String) : Option Suggestion :=
  match backend with
  | BackendResult.raised => some (get_fallback_suggestion user_request)
  | BackendResult.replied content =>
    match parse_ai_response s.default_shell loads (pyStrip content) with
    | Except.ok r => r
    | Except.error _ => some (get_fallback_suggestion user_request)

/-- `CommandAI._suggest_with_gemini`: same try/except structure as the
OpenAI variant. -/
def suggest_with_gemini (s : Settings) (backend : BackendResult)
    (loads : LoadsResult) (user_request : String) : Option Suggestion :=
  match backend with
  | BackendResult.raised => some (get_fallback_suggestion user_request)
  | BackendResult.replied content =>
    match parse_ai_response s.default_shell loads (pyStrip content) with
    | Except.ok r => r
    | Except.error _ => some (get_fallback_suggestion user_request)

/-- `CommandAI.suggest_command`: provider dispatch.  `has_openai_client` and
`has_gemini_model` are the truthiness of `self.openai_client` /
`self.gemini_model`. -/
def suggest_command (s : Settings) (has_openai_client has_gemini_model : Bool)
    (backend : BackendResult) (loads : LoadsResult)
    (user_request : String) : Option Suggestion :=
  if s.ai_provider = "fallback" then
    some (get_fallback_suggestion user_request)
  else if s.ai_provider = "openai" ∧ has_openai_client = true then
    suggest_with_openai s backend loads user_request
  else if s.ai_provider = "gemini" ∧ has_gemini_model = true then
    suggest_with_gemini s backend loads user_request
  else
    some (get_fallback_suggestion user_request)

/-- Behaviour of one subordinate process run: either launching/handling it
raises an exception, or it runs for `runtimeSecs` seconds and then exits. -/
inductive ProcBehavior where
  | raises (msg : String)
  | runs (runtimeSecs : Nat) (exitCode : Int) (stdout : String) (stderr : String)

/-- What an `execute` call reports to its caller (the handlers print their
outcome; this is that outcome). -/
inductive ExecReport where
  | unavailable
  | success (stdout : String)
  | failed (exitCode : Int) (stderr : String)
  | timedOut
  | error (msg : String)

/-- `PowerShellHandler.execute`: unavailability short-circuits;
`subprocess.run(..., timeout=30)` raises `TimeoutExpired` when the process
runs longer than 30 seconds (caught and reported); any other exception is
caught and reported as an error. -/
def powershell_execute (is_available : Bool) (proc : ProcBehavior) : ExecReport :=
  if is_available = false then ExecReport.unavailable
  else
    match proc with
    | ProcBehavior.raises msg => ExecReport.error msg
    | ProcBehavior.runs t code out err =>
      if 30 < t then ExecReport.timedOut
      else if code ≠ 0 then ExecReport.failed code err
      else ExecReport.success out

/-- `PythonHandler._execute_single_command`: `Popen` + `communicate()` with
no timeout argument — the call waits for the process however long it runs;
exceptions are caught and reported as an error. -/
def python_execute_single (proc : ProcBehavior) : ExecReport :=
  match proc with
  | ProcBehavior.raises msg => ExecReport.error msg
  | ProcBehavior.runs _ code out err =>
    if code ≠ 0 then ExecReport.failed code err
    else ExecReport.success out

/-- `PythonHandler._execute_script`: temp-file + `Popen` + `communicate()`,
also with no timeout argument. -/
def python_execute_script (proc : ProcBehavior) : ExecReport :=
  match proc with
  | ProcBehavior.raises msg => ExecReport.error msg
  | ProcBehavior.runs _ code out err =>
    if code ≠ 0 then ExecReport.failed code err
    else ExecReport.success out

/-- The script-vs-single-statement classification in `PythonHandler.execute`. -/
def python_is_script (command : String) : Bool :=
  strContains command "\n" || pyStartsWith (pyStrip command) "import "
    || strContains command "def "

/-- `PythonHandler.execute`: classify, then run the matching variant. -/
def python_execute (command : String) (proc : ProcBehavior) : ExecReport :=
  if python_is_script command then python_execute_script proc
  else python_execute_single proc

/-- The claim-side score: the sum of the character lengths of the trigger
phrases of the rule that occur as substrings of the lower-cased request. -/
def specScore (user_lower : String) (r : PatternRule) : Nat :=
  ((r.triggers.filter (fun p => strContains user_lower p)).map
    (fun p => p.data.length)).sum

/-- The claim-side best score over a table. -/
def specMaxScore (user_lower : String) (l : List PatternRule) : Nat :=
  (l.map (specScore user_lower)).foldr max 0

/-- The claim-side matched rule: the first rule in table order whose score
attains the highest score. -/
def specBestRule (user_lower : String) (l : List PatternRule) : Option PatternRule :=
  l.find? (fun r => specScore user_lower r == specMaxScore user_lower l)

/-- The scan state of the line-oriented extraction described by the spec. -/
structure ScanState where
  command : String
  description : String

/-- One scan step, per the amended claim: a line whose stripped text begins
with exactly `Command:` or `command:` (resp. `Description:` or
`description:`) populates the corresponding field with the label stripped
and the value trimmed; otherwise, while no command is set, the first
non-empty line not starting with `#` is adopted as the command. -/
def specScanLine (st : ScanState) (raw : String) : ScanState :=
  let line := pyStrip raw
  if pyStartsWith line "Command:" || pyStartsWith line "command:" then
    ⟨pyStrip (afterColon line), st.description⟩
  else if pyStartsWith line "Description:" || pyStartsWith line "description:" then
    ⟨st.command, pyStrip (afterColon line)⟩
  else if st.command = "" && line ≠ "" && !pyStartsWith line "#" then
    ⟨line, st.description⟩
  else st

/-- The claim-side normalizer for free text: fold the scan over the lines;
return nothing exactly when no command was ever found. -/
def normalizer_text_spec (default_shell content : String) : Option Suggestion :=
  let st := (pySplitNl content).foldl specScanLine ⟨"", ""⟩
  if st.command = "" then none
  else some ⟨st.command, Json.str st.description, Json.str default_shell, Json.str ""⟩
/-- Encoding a suggestion record into the canonical JSON schema with the
four keys `command`, `description`, `shell` and `warning`. -/
def encode_suggestion (r : Suggestion) : Json :=
  Json.obj [("command", Json.str r.command), ("description", r.description),
            ("shell", r.shell), ("warning", r.warning)]

/-- A provider configuration under which `suggest_command` actually calls a
backend: provider string `openai` with a client, or `gemini` with a model. -/
def backend_configured (s : Settings) (has_openai_client has_gemini_model : Bool) : Prop :=
  (s.ai_provider = "openai" ∧ has_openai_client = true) ∨
  (s.ai_provider = "gemini" ∧ has_gemini_model = true)

example : pyStrip "  hi there \n" = "hi there" := by decide
example : strContains "get-process | format-table" "format" = true := by decide
example : strContains "pip list" "format" = false := by decide
example : pyLower "Get-Process | Format-Table" = "get-process | format-table" := by decide
example : afterColon "Command: dir /s" = " dir /s" := by decide
example : pySplitNl "a\nb\n" = ["a", "b", ""] := by decide
example :
    (parse_text_response "powershell" "# note\nGet-Date\nDescription: now").map
      Suggestion.command = some "Get-Date" := by decide

theorem dropWhile_head_false {p : Char → Bool} {l : List Char} {c : Char} {t : List Char}
    (h : l.dropWhile p = c :: t) : p c = false := by
  induction l with
  | nil => simp at h
  | cons a as ih =>
    rw [List.dropWhile_cons] at h
    by_cases hp : p a = true
    · simp [hp] at h
      exact ih h
    · simp [hp] at h
      obtain ⟨rfl, _⟩ := h
      simpa using hp

theorem rstripL_idem (l : List Char) : rstripL (rstripL l) = rstripL l := by
  induction l with
  | nil => rfl
  | cons c cs ih =>
    cases h : rstripL cs with
    | nil =>
      by_cases hw : isPyWs c = true
      · simp [rstripL, h, hw]
      · simp [rstripL, h, hw]
    | cons x xs =>
      have : rstripL (c :: cs) = c :: x :: xs := by
        simp [rstripL, h]
      rw [this]
      have hx : rstripL (x :: xs) = x :: xs := by
        rw [← h, ih, h]
      show (match rstripL (x :: xs) with
        | [] => if isPyWs c = true then [] else [c]
        | r => c :: r) = c :: x :: xs
      rw [hx]

theorem rstripL_eq_cons {u : List Char} {c : Char} {t : List Char}
    (h : rstripL u = c :: t) : ∃ u', u = c :: u' := by
  cases u with
  | nil => simp [rstripL] at h
  | cons a as =>
    refine ⟨as, ?_⟩
    unfold rstripL at h
    cases h' : rstripL as with
    | nil =>
      rw [h'] at h
      by_cases hw : isPyWs a = true
      · simp [hw] at h
      · simp [hw] at h
        obtain ⟨rfl, _⟩ := h
        rfl
    | cons x xs =>
      rw [h'] at h
      cases h
      rfl

theorem pyStrip_idem (s : String) : pyStrip (pyStrip s) = pyStrip s := by
  unfold pyStrip
  cases hv : rstripL (s.data.dropWhile isPyWs) with
  | nil => rfl
  | cons c t =>
    obtain ⟨u', hu⟩ := rstripL_eq_cons hv
    have hc : isPyWs c = false := dropWhile_head_false (p := isPyWs) (hu ▸ rfl : s.data.dropWhile isPyWs = c :: u')
    show String.mk (rstripL ((String.mk (c :: t)).data.dropWhile isPyWs)) = String.mk (c :: t)
    have hdw : (String.mk (c :: t)).data.dropWhile isPyWs = c :: t := by
      simp [List.dropWhile_cons, hc]
    rw [hdw, ← hv, rstripL_idem, hv]

theorem rstripL_ne_nil_of_mem {l : List Char} {c : Char} (h : c ∈ l)
    (hw : isPyWs c = false) : rstripL l ≠ [] := by
  induction l with
  | nil => simp at h
  | cons a as ih =>
    intro hcon
    unfold rstripL at hcon
    cases h' : rstripL as with
    | nil =>
      rw [h'] at hcon
      rcases List.mem_cons.mp h with rfl | hmem
      · simp [hw] at hcon
      · exact ih hmem h'
    | cons x xs => rw [h'] at hcon; cases hcon

theorem pyStrip_ne_empty_of_mem {s : String} {c : Char} (h : c ∈ s.data)
    (hw : isPyWs c = false) : pyStrip s ≠ "" := by
  unfold pyStrip
  intro hcon
  have hdata : rstripL (s.data.dropWhile isPyWs) = [] := congrArg String.data hcon
  have hall : ∀ x ∈ s.data.dropWhile isPyWs, isPyWs x = true := by
    intro x hx
    by_contra hb
    cases hxx : s.data.dropWhile isPyWs with
    | nil => rw [hxx] at hx; simp at hx
    | cons y ys => exact rstripL_ne_nil_of_mem (l := y :: ys) (hxx ▸ hx) (by simpa using hb) (hxx ▸ hdata)
  have hne : s.data.dropWhile isPyWs ≠ [] := by
    rw [ne_eq, List.dropWhile_eq_nil_iff]
    push_neg
    exact ⟨c, h, by simp [hw]⟩
  cases hxx : s.data.dropWhile isPyWs with
  | nil => exact hne hxx
  | cons y ys =>
    have hy := dropWhile_head_false (p := isPyWs) hxx
    have := hall y (by rw [hxx]; simp)
    rw [hy] at this
    cases this

theorem warnFold_no_match (l : List String) (w : Json) (lower : String)
    (h : ∀ d ∈ l, strContains lower d = false) :
    l.foldl (fun w d => if strContains lower d then Json.str destructiveWarning else w) w = w := by
  induction l generalizing w with
  | nil => rfl
  | cons d ds ih =>
    rw [List.foldl_cons]
    have hd := h d (by simp)
    simp only [hd, Bool.false_eq_true, if_false]
    exact ih w (fun x hx => h x (by simp [hx]))

theorem warnFold_match (l : List String) (w : Json) (lower : String)
    (h : ∃ d ∈ l, strContains lower d = true) :
    l.foldl (fun w d => if strContains lower d then Json.str destructiveWarning else w) w =
      Json.str destructiveWarning := by
  induction l generalizing w with
  | nil => simp at h
  | cons d ds ih =>
    rw [List.foldl_cons]
    by_cases hds : ∃ x ∈ ds, strContains lower x = true
    · exact ih _ hds
    · push_neg at hds
      have hd : strContains lower d = true := by
        rcases h with ⟨x, hx, hcx⟩
        rcases List.mem_cons.mp hx with rfl | hmem
        · exact hcx
        · exact absurd hcx (by simp [hds x hmem])
      simp only [hd, if_true]
      exact warnFold_no_match ds _ lower (fun x hx => by simpa using hds x hx)

theorem validate_obj_str (dft : String) (fields : List (String × Json)) (c : String)
    (hkey : pyHasKey fields "command" = true)
    (hcmd : pyGetD fields "command" (Json.str "") = Json.str c) :
    validate_suggestion dft (Json.obj fields) =
      Except.ok (if pyStrip c = "" then none
        else some ⟨pyStrip c, pyGetD fields "description" (Json.str ""),
          pyGetD fields "shell" (Json.str dft),
          dangerous_commands.foldl
            (fun w d => if strContains (pyLower (pyStrip c)) d then Json.str destructiveWarning else w)
            (pyGetD fields "warning" (Json.str ""))⟩) := by
  simp only [validate_suggestion, hkey, hcmd]
  simp

theorem foldl_score_acc (u : String) (l : List String) (a : Nat) :
    l.foldl (fun s p => if strContains u p then s + p.data.length else s) a =
      a + ((l.filter (fun p => strContains u p)).map (fun p => p.data.length)).sum := by
  induction l generalizing a with
  | nil => simp
  | cons p ps ih =>
    rw [List.foldl_cons]
    by_cases hp : strContains u p = true
    · rw [if_pos hp, ih, List.filter_cons_of_pos (by simpa using hp)]
      simp
      omega
    · rw [if_neg (by simpa using hp), ih,
        List.filter_cons_of_neg (by simpa using hp)]

theorem ruleScore_eq_specScore (u : String) (r : PatternRule) :
    ruleScore u r = specScore u r := by
  unfold ruleScore specScore
  rw [foldl_score_acc]
  omega

theorem specMaxScore_cons (u : String) (r : PatternRule) (rs : List PatternRule) :
    specMaxScore u (r :: rs) = max (specScore u r) (specMaxScore u rs) := by
  simp [specMaxScore]

theorem le_specMaxScore (u : String) {r : PatternRule} {l : List PatternRule}
    (h : r ∈ l) : specScore u r ≤ specMaxScore u l := by
  induction l with
  | nil => simp at h
  | cons x xs ih =>
    rw [specMaxScore_cons]
    rcases List.mem_cons.mp h with rfl | hmem
    · exact Nat.le_max_left _ _
    · exact le_trans (ih hmem) (Nat.le_max_right _ _)

theorem bestLoop_cons (u : String) (r : PatternRule) (rs : List PatternRule)
    (b : Nat) (m : Option PatternRule) :
    bestLoop u (r :: rs) b m =
      if b < ruleScore u r then bestLoop u rs (ruleScore u r) (some r)
      else bestLoop u rs b m := rfl

theorem bestLoop_stay (u : String) (l : List PatternRule) (b : Nat)
    (m : Option PatternRule) (h : ∀ r ∈ l, ruleScore u r ≤ b) :
    bestLoop u l b m = (b, m) := by
  induction l generalizing b m with
  | nil => rfl
  | cons r rs ih =>
    rw [bestLoop_cons]
    have hr := h r (by simp)
    rw [if_neg (by omega)]
    exact ih b m (fun x hx => h x (by simp [hx]))

theorem bestLoop_find (u : String) (l : List PatternRule) (b : Nat)
    (m : Option PatternRule) (h : b < specMaxScore u l) :
    (bestLoop u l b m).2 = l.find? (fun r => specScore u r == specMaxScore u l) := by
  induction l generalizing b m with
  | nil => simp [specMaxScore] at h
  | cons r rs ih =>
    rw [bestLoop_cons, ruleScore_eq_specScore]
    rw [specMaxScore_cons] at h ⊢
    by_cases hbr : b < specScore u r
    · rw [if_pos hbr]
      by_cases hrs : specScore u r < specMaxScore u rs
      · rw [Nat.max_eq_right (le_of_lt hrs)]
        rw [List.find?_cons_of_neg _ (by simp; omega)]
        exact ih _ _ hrs
      · push_neg at hrs
        rw [Nat.max_eq_left hrs]
        rw [bestLoop_stay u rs _ _
          (fun x hx => by rw [ruleScore_eq_specScore]; exact le_trans (le_specMaxScore u hx) hrs)]
        rw [List.find?_cons_of_pos _ (by simp)]
    · push_neg at hbr
      rw [if_neg (by omega)]
      have hmax : max (specScore u r) (specMaxScore u rs) = specMaxScore u rs := by
        rcases Nat.le_total (specScore u r) (specMaxScore u rs) with hle | hle
        · exact Nat.max_eq_right hle
        · rw [Nat.max_eq_left hle] at h
          omega
      rw [hmax] at h ⊢
      rw [List.find?_cons_of_neg _ (by simp; omega)]
      exact ih _ _ h

theorem bestLoop_mem (u : String) (l : List PatternRule) (b : Nat)
    (m : Option PatternRule) (r : PatternRule)
    (h : (bestLoop u l b m).2 = some r) : m = some r ∨ r ∈ l := by
  induction l generalizing b m with
  | nil => exact Or.inl h
  | cons x xs ih =>
    rw [bestLoop_cons] at h
    split at h
    · rcases ih _ _ h with h1 | h2
      · injection h1 with h1
        right
        simp [h1]
      · right
        simp [h2]
    · rcases ih _ _ h with h1 | h2
      · exact Or.inl h1
      · right
        simp [h2]

theorem specMax_attained (u : String) (l : List PatternRule) :
    specMaxScore u l = 0 ∨ ∃ r ∈ l, specScore u r = specMaxScore u l := by
  induction l with
  | nil => exact Or.inl rfl
  | cons x xs ih =>
    rw [specMaxScore_cons]
    rcases Nat.le_total (specMaxScore u xs) (specScore u x) with hle | hle
    · right
      exact ⟨x, by simp, (Nat.max_eq_left hle).symm⟩
    · rcases ih with h0 | ⟨r, hr, hs⟩
      · right
        refine ⟨x, by simp, ?_⟩
        rw [h0, Nat.max_eq_left (Nat.zero_le _)]
      · right
        exact ⟨r, by simp [hr], by rw [Nat.max_eq_right hle, hs]⟩

theorem parse_text_loop_cons (cmd desc l : String) (ls : List String) :
    parse_text_loop cmd desc (l :: ls) =
      (let line := pyStrip l;
       if pyStartsWith line "Command:" || pyStartsWith line "command:" then
        parse_text_loop (pyStrip (afterColon line)) desc ls
      else if pyStartsWith line "Description:" || pyStartsWith line "description:" then
        parse_text_loop cmd (pyStrip (afterColon line)) ls
      else if cmd = "" && line ≠ "" && !pyStartsWith line "#" then
        parse_text_loop line desc ls
      else
        parse_text_loop cmd desc ls) := rfl

theorem parse_text_loop_strip (lines : List String) (cmd desc : String)
    (h : pyStrip cmd = cmd) :
    pyStrip (parse_text_loop cmd desc lines).1 = (parse_text_loop cmd desc lines).1 := by
  induction lines generalizing cmd desc with
  | nil => exact h
  | cons l ls ih =>
    rw [parse_text_loop_cons]
    dsimp only
    split_ifs
    · exact ih _ _ (pyStrip_idem _)
    · exact ih _ _ h
    · exact ih _ _ (pyStrip_idem _)
    · exact ih _ _ h

set_option maxRecDepth 4000 in
theorem fallback_table_wf : ∀ x ∈ fallback_table,
    pyStrip x.command ≠ "" ∧ (x.shell = "powershell" ∨ x.shell = "python") := by decide

theorem parse_text_loop_eq_foldl (lines : List String) (cmd desc : String) :
    parse_text_loop cmd desc lines =
      ((lines.foldl specScanLine ⟨cmd, desc⟩).command,
       (lines.foldl specScanLine ⟨cmd, desc⟩).description) := by
  induction lines generalizing cmd desc with
  | nil => rfl
  | cons l ls ih =>
    rw [parse_text_loop_cons, List.foldl_cons]
    dsimp only
    simp only [specScanLine]
    dsimp only
    split_ifs
    · exact ih _ _
    · exact ih _ _
    · exact ih _ _
    · exact ih _ _

theorem suggest_with_openai_none_iff (s : Settings) (backend : BackendResult)
    (loads : LoadsResult) (req : String) :
    suggest_with_openai s backend loads req = none ↔
      ∃ content, backend = BackendResult.replied content ∧
        parse_ai_response s.default_shell loads (pyStrip content) = Except.ok none := by
  cases backend with
  | raised => simp [suggest_with_openai]
  | replied content =>
    simp only [suggest_with_openai]
    cases hp : parse_ai_response s.default_shell loads (pyStrip content) with
    | ok r =>
      cases r with
      | none =>
        constructor
        · intro _
          exact ⟨content, rfl, hp⟩
        · intro _
          rfl
      | some x =>
        constructor
        · intro h
          cases h
        · rintro ⟨c2, hc2, hpc⟩
          injection hc2 with hc2
          subst hc2
          rw [hp] at hpc
          injection hpc
    | error e =>
      constructor
      · intro h
        cases h
      · rintro ⟨c2, hc2, hpc⟩
        injection hc2 with hc2
        subst hc2
        rw [hp] at hpc
        cases hpc

theorem suggest_with_gemini_none_iff (s : Settings) (backend : BackendResult)
    (loads : LoadsResult) (req : String) :
    suggest_with_gemini s backend loads req = none ↔
      ∃ content, backend = BackendResult.replied content ∧
        parse_ai_response s.default_shell loads (pyStrip content) = Except.ok none := by
  cases backend with
  | raised => simp [suggest_with_gemini]
  | replied content =>
    simp only [suggest_with_gemini]
    cases hp : parse_ai_response s.default_shell loads (pyStrip content) with
    | ok r =>
      cases r with
      | none =>
        constructor
        · intro _
          exact ⟨content, rfl, hp⟩
        · intro _
          rfl
      | some x =>
        constructor
        · intro h
          cases h
        · rintro ⟨c2, hc2, hpc⟩
          injection hc2 with hc2
          subst hc2
          rw [hp] at hpc
          injection hpc
    | error e =>
      constructor
      · intro h
        cases h
      · rintro ⟨c2, hc2, hpc⟩
        injection hc2 with hc2
        subst hc2
        rw [hp] at hpc
        cases hpc

/-- Claim C1 (amended): `suggest_command` returns the fallback matcher's
record whenever the provider is `fallback`, whenever no backend is usably
configured, and whenever the backend call raises an exception; but when a
configured backend replies and normalization yields no record (command
missing, empty or whitespace-only; or no extractable command in free text),
`suggest_command` returns `none` instead of falling back.  The first
conjunct characterizes exactly when `none` is returned. -/
theorem engine_fallback_policy (s : Settings) (has_openai_client has_gemini_model : Bool)
    (backend : BackendResult) (loads : LoadsResult) (req : String) :
    (suggest_command s has_openai_client has_gemini_model backend loads req = none ↔
      backend_configured s has_openai_client has_gemini_model ∧
      ∃ content, backend = BackendResult.replied content ∧
        parse_ai_response s.default_shell loads (pyStrip content) = Except.ok none) ∧
    (backend = BackendResult.raised →
      suggest_command s has_openai_client has_gemini_model backend loads req =
        some (get_fallback_suggestion req)) ∧
    (¬ backend_configured s has_openai_client has_gemini_model →
      suggest_command s has_openai_client has_gemini_model backend loads req =
        some (get_fallback_suggestion req)) := by
  unfold suggest_command backend_configured
  split_ifs with h1 h2 h3
  · refine ⟨?_, fun _ => rfl, fun _ => rfl⟩
    constructor
    · intro h
      cases h
    · rintro ⟨hcfg, -⟩
      rcases hcfg with ⟨hp, -⟩ | ⟨hp, -⟩ <;> (rw [h1] at hp; exact absurd hp (by decide))
  · refine ⟨?_, ?_, ?_⟩
    · rw [suggest_with_openai_none_iff]
      constructor
      · intro h
        exact ⟨Or.inl h2, h⟩
      · exact And.right
    · intro hb
      subst hb
      rfl
    · intro hn
      exact absurd (Or.inl h2) hn
  · refine ⟨?_, ?_, ?_⟩
    · rw [suggest_with_gemini_none_iff]
      constructor
      · intro h
        exact ⟨Or.inr h3, h⟩
      · exact And.right
    · intro hb
      subst hb
      rfl
    · intro hn
      exact absurd (Or.inr h3) hn
  · refine ⟨?_, fun _ => rfl, fun _ => rfl⟩
    constructor
    · intro h
      cases h
    · rintro ⟨hcfg, -⟩
      rcases hcfg with hc | hc
      · exact absurd hc h2
      · exact absurd hc h3

/-- Witness for claim C1: a concrete configuration with a raised backend
exception, where the engine returns the fallback record. -/
theorem engine_fallback_policy_witness :
    suggest_command ⟨"openai", "powershell"⟩ true false BackendResult.raised
      LoadsResult.decodeError "list services" =
      some (get_fallback_suggestion "list services") :=
  (engine_fallback_policy ⟨"openai", "powershell"⟩ true false BackendResult.raised
    LoadsResult.decodeError "list services").2.1 rfl

/-- Claim C1 counterexample: with provider `openai` and a client present, a
backend reply that decodes to a JSON object with an empty command makes
`suggest_command` return `none` — the fallback record is not returned,
refuting the claim that the engine never returns `None`. -/
theorem engine_returns_none_counterexample :
    suggest_command ⟨"openai", "powershell"⟩ true false
      (BackendResult.replied "\x7b\"command\": \"\", \"description\": \"x\"\x7d")
      (LoadsResult.ok (Json.obj [("command", Json.str ""), ("description", Json.str "x")]))
      "list services" = none := by rfl

/-- Claim C2: the fallback matcher lower-cases the request and scores every
rule by the summed character lengths of its trigger phrases that occur as
substrings; whenever some trigger matches (best score positive), it returns
the template of the first rule in table order attaining the strictly
highest score (ties keep the earlier rule), with the fallback warning. -/
theorem fallback_matches_first_highest_rule (req : String)
    (h : 0 < specMaxScore (pyLower req) fallback_table) :
    ∃ r, specBestRule (pyLower req) fallback_table = some r ∧
      get_fallback_suggestion req =
        ⟨r.command, Json.str r.description, Json.str r.shell, Json.str fallbackWarning⟩ := by
  rcases specMax_attained (pyLower req) fallback_table with h0 | ⟨r0, hr0, hs0⟩
  · omega
  · have hfind : (specBestRule (pyLower req) fallback_table).isSome := by
      rw [specBestRule, List.find?_isSome]
      exact ⟨r0, hr0, by simp [hs0]⟩
    obtain ⟨r, hr⟩ := Option.isSome_iff_exists.mp hfind
    refine ⟨r, hr, ?_⟩
    have hr' : fallback_table.find?
        (fun x => specScore (pyLower req) x == specMaxScore (pyLower req) fallback_table) =
        some r := hr
    unfold get_fallback_suggestion
    rw [bestLoop_find (pyLower req) fallback_table 0 none h, hr']

set_option maxRecDepth 4000 in
/-- Witness for claim C2: the request `list all running services` matches,
and the matcher returns the first highest-scoring rule's template. -/
theorem fallback_matches_first_highest_rule_witness :
    0 < specMaxScore (pyLower "list all running services") fallback_table ∧
    ∃ r, specBestRule (pyLower "list all running services") fallback_table = some r ∧
      get_fallback_suggestion "list all running services" =
        ⟨r.command, Json.str r.description, Json.str r.shell, Json.str fallbackWarning⟩ :=
  ⟨by decide, fallback_matches_first_highest_rule _ (by decide)⟩

/-- Claim C3 (amended): the native-shell handler enforces a 30-second
timeout on the subordinate process — a longer run is reported as timed out
— and converts raised exceptions into an error report; the
scripting-runtime handler also converts exceptions into an error report but
enforces no timeout: a completed run is never reported as timed out, no
matter how long it ran. -/
theorem executor_timeout_policy :
    (∀ t code out err, 30 < t →
        powershell_execute true (ProcBehavior.runs t code out err) = ExecReport.timedOut) ∧
    (∀ msg, powershell_execute true (ProcBehavior.raises msg) = ExecReport.error msg) ∧
    (∀ msg, python_execute_single (ProcBehavior.raises msg) = ExecReport.error msg) ∧
    (∀ msg, python_execute_script (ProcBehavior.raises msg) = ExecReport.error msg) ∧
    (∀ t code out err,
        python_execute_single (ProcBehavior.runs t code out err) ≠ ExecReport.timedOut) ∧
    (∀ t code out err cmd,
        python_execute cmd (ProcBehavior.runs t code out err) ≠ ExecReport.timedOut) := by
  refine ⟨?_, fun _ => rfl, fun _ => rfl, fun _ => rfl, ?_, ?_⟩
  · intro t code out err ht
    have he : powershell_execute true (ProcBehavior.runs t code out err) =
        if 30 < t then ExecReport.timedOut
        else if code ≠ 0 then ExecReport.failed code err
        else ExecReport.success out := rfl
    rw [he, if_pos ht]
  · intro t code out err h
    have he : python_execute_single (ProcBehavior.runs t code out err) =
        if code ≠ 0 then ExecReport.failed code err else ExecReport.success out := rfl
    rw [he] at h
    by_cases hc : code ≠ 0
    · rw [if_pos hc] at h
      cases h
    · rw [if_neg hc] at h
      cases h
  · intro t code out err cmd h
    have he : python_execute cmd (ProcBehavior.runs t code out err) =
        if code ≠ 0 then ExecReport.failed code err else ExecReport.success out := by
      unfold python_execute
      by_cases hs : python_is_script cmd = true
      · rw [if_pos hs]
        rfl
      · rw [if_neg hs]
        rfl
    rw [he] at h
    by_cases hc : code ≠ 0
    · rw [if_pos hc] at h
      cases h
    · rw [if_neg hc] at h
      cases h

/-- Witness for claim C3: a 31-second run under the PowerShell handler is
reported as timed out. -/
theorem executor_timeout_policy_witness :
    powershell_execute true (ProcBehavior.runs 31 0 "" "") = ExecReport.timedOut :=
  executor_timeout_policy.1 31 0 "" "" (by decide)

/-- Claim C3 counterexample: a subordinate process running 1000000 seconds
under the Python handler completes normally and is not reported as timed
out, so the scripting-runtime variant enforces no bounded runtime limit. -/
theorem python_no_timeout_counterexample :
    python_execute_single (ProcBehavior.runs 1000000 0 "done" "") =
      ExecReport.success "done" := by rfl

/-- Claim C4: for every record passing safety validation (an object whose
command value is a string that is non-empty after trimming), the command is
altered only by trimming; if the lower-cased command contains a deny-listed
fragment, the warning is overwritten with the destructive-operation notice,
and if it contains none, the warning is exactly the incoming warning field
(in particular an empty warning stays empty). -/
theorem safety_validation_warning (dft : String) (fields : List (String × Json))
    (c : String)
    (hkey : pyHasKey fields "command" = true)
    (hcmd : pyGetD fields "command" (Json.str "") = Json.str c)
    (hne : pyStrip c ≠ "") :
    ∃ r, validate_suggestion dft (Json.obj fields) = Except.ok (some r) ∧
      r.command = pyStrip c ∧
      r.description = pyGetD fields "description" (Json.str "") ∧
      r.shell = pyGetD fields "shell" (Json.str dft) ∧
      ((∃ d ∈ dangerous_commands, strContains (pyLower (pyStrip c)) d = true) →
          r.warning = Json.str destructiveWarning) ∧
      ((∀ d ∈ dangerous_commands, strContains (pyLower (pyStrip c)) d = false) →
          r.warning = pyGetD fields "warning" (Json.str "")) := by
  rw [validate_obj_str dft fields c hkey hcmd, if_neg hne]
  refine ⟨_, rfl, rfl, rfl, rfl, ?_, ?_⟩
  · intro h
    exact warnFold_match _ _ _ h
  · intro h
    exact warnFold_no_match _ _ _ h

/-- Witness for claim C4: a concrete deny-listed command receives the
destructive-operation notice. -/
theorem safety_validation_warning_witness :
    pyHasKey [("command", Json.str "rm -rf /"), ("warning", Json.str "")] "command" = true ∧
    pyStrip "rm -rf /" ≠ "" ∧
    ∃ r, validate_suggestion "powershell"
        (Json.obj [("command", Json.str "rm -rf /"), ("warning", Json.str "")]) =
        Except.ok (some r) ∧
      r.command = pyStrip "rm -rf /" ∧
      r.description = pyGetD [("command", Json.str "rm -rf /"), ("warning", Json.str "")]
        "description" (Json.str "") ∧
      r.shell = pyGetD [("command", Json.str "rm -rf /"), ("warning", Json.str "")]
        "shell" (Json.str "powershell") ∧
      ((∃ d ∈ dangerous_commands,
          strContains (pyLower (pyStrip "rm -rf /")) d = true) →
          r.warning = Json.str destructiveWarning) ∧
      ((∀ d ∈ dangerous_commands,
          strContains (pyLower (pyStrip "rm -rf /")) d = false) →
          r.warning = pyGetD [("command", Json.str "rm -rf /"), ("warning", Json.str "")]
            "warning" (Json.str "")) :=
  ⟨by decide, by decide,
   safety_validation_warning "powershell" _ "rm -rf /" (by decide) rfl (by decide)⟩

/-- Claim C5 (amended): the free-text normalizer scans stripped lines
top-to-bottom; exactly the two label casings `Command:`/`command:` (resp.
`Description:`/`description:`) populate the corresponding field with the
label stripped and the value trimmed — a differently-cased label is an
ordinary line; while no command is set, the first non-empty line not
starting with `#` is adopted as the command; the result is `none` exactly
when no command is ever found.  Stated as equality with the spec-level
scan `normalizer_text_spec`. -/
theorem text_extraction_matches_spec (default_shell content : String) :
    parse_text_response default_shell content =
      normalizer_text_spec default_shell content := by
  unfold parse_text_response normalizer_text_spec
  rw [parse_text_loop_eq_foldl]
  by_cases h : ((pySplitNl content).foldl specScanLine ⟨"", ""⟩).command = ""
  · rw [if_neg (by simp [h]), if_pos h]
  · rw [if_pos h, if_neg h]

/-- Claim C5 counterexample: the upper-cased label line `COMMAND: dir` is
not recognized as a label; the whole line is adopted as the command rather
than the value `dir`, so label matching is not case-insensitive. -/
theorem label_casing_counterexample :
    parse_text_response "powershell" "COMMAND: dir" =
      some ⟨"COMMAND: dir", Json.str "", Json.str "powershell", Json.str ""⟩ ∧
    ("COMMAND: dir" : String) ≠ "dir" := ⟨rfl, by decide⟩

/-- Claim C6: the structured normalization path returns no record when the
decoded JSON value is not an object, when the object lacks a `command` key,
and when the command value is empty or whitespace-only after trimming. -/
theorem normalize_rejects_commandless (dft : String) :
    (∀ j, (∀ fields, j ≠ Json.obj fields) → validate_suggestion dft j = Except.ok none) ∧
    (∀ fields, pyHasKey fields "command" = false →
        validate_suggestion dft (Json.obj fields) = Except.ok none) ∧
    (∀ fields c, pyGetD fields "command" (Json.str "") = Json.str c → pyStrip c = "" →
        validate_suggestion dft (Json.obj fields) = Except.ok none) := by
  refine ⟨?_, ?_, ?_⟩
  · intro j hj
    cases j with
    | obj fields => exact absurd rfl (hj fields)
    | str s => rfl
    | num n => rfl
    | bool b => rfl
    | null => rfl
    | arr es => rfl
  · intro fields hkey
    simp [validate_suggestion, hkey]
  · intro fields c hcmd hstrip
    by_cases hkey : pyHasKey fields "command" = true
    · rw [validate_obj_str dft fields c hkey hcmd, if_pos hstrip]
    · simp [validate_suggestion, hkey]

/-- Witness for claim C6: a whitespace-only command is rejected. -/
theorem normalize_rejects_commandless_witness :
    validate_suggestion "powershell" (Json.obj [("command", Json.str "   ")]) =
      Except.ok none :=
  (normalize_rejects_commandless "powershell").2.2 [("command", Json.str "   ")]
    "   " rfl (by decide)

/-- Claim C7 (amended): every record exposed by the three production paths
has a command that is non-empty after trimming; free-text records carry the
configured default shell and fallback records carry one of the two shell
enum values — but the structured path passes the backend-supplied shell
value through unvalidated. -/
theorem exposed_records_wellformed :
    (∀ dft j r, validate_suggestion dft j = Except.ok (some r) → pyStrip r.command ≠ "") ∧
    (∀ dft content r, parse_text_response dft content = some r →
        pyStrip r.command ≠ "" ∧ r.shell = Json.str dft) ∧
    (∀ req, pyStrip (get_fallback_suggestion req).command ≠ "" ∧
        ((get_fallback_suggestion req).shell = Json.str "powershell" ∨
         (get_fallback_suggestion req).shell = Json.str "python")) := by
  refine ⟨?_, ?_, ?_⟩
  · intro dft j r h
    cases j with
    | obj fields =>
      by_cases hkey : pyHasKey fields "command" = true
      · cases hv : pyGetD fields "command" (Json.str "") with
        | str c =>
          rw [validate_obj_str dft fields c hkey hv] at h
          by_cases hc : pyStrip c = ""
          · rw [if_pos hc] at h
            simp at h
          · rw [if_neg hc] at h
            injection h with h
            injection h with h
            subst h
            show pyStrip (pyStrip c) ≠ ""
            rw [pyStrip_idem]
            exact hc
        | num n => simp [validate_suggestion, hkey, hv] at h
        | bool b => simp [validate_suggestion, hkey, hv] at h
        | null => simp [validate_suggestion, hkey, hv] at h
        | arr es => simp [validate_suggestion, hkey, hv] at h
        | obj fs => simp [validate_suggestion, hkey, hv] at h
      · simp [validate_suggestion, hkey] at h
    | str s => simp [validate_suggestion] at h
    | num n => simp [validate_suggestion] at h
    | bool b => simp [validate_suggestion] at h
    | null => simp [validate_suggestion] at h
    | arr es => simp [validate_suggestion] at h
  · intro dft content r h
    unfold parse_text_response at h
    by_cases hc : (parse_text_loop "" "" (pySplitNl content)).1 ≠ ""
    · rw [if_pos hc] at h
      injection h with h
      subst h
      refine ⟨?_, rfl⟩
      show pyStrip (parse_text_loop "" "" (pySplitNl content)).1 ≠ ""
      rw [parse_text_loop_strip _ _ _ (by decide)]
      exact hc
    · rw [if_neg hc] at h
      cases h
  · intro req
    unfold get_fallback_suggestion
    cases hb : (bestLoop (pyLower req) fallback_table 0 none).2 with
    | some r =>
      dsimp only
      rcases bestLoop_mem _ _ _ _ _ hb with h1 | h2
      · cases h1
      · have hprop : ∀ x ∈ fallback_table,
            pyStrip x.command ≠ "" ∧ (x.shell = "powershell" ∨ x.shell = "python") :=
          fallback_table_wf
        obtain ⟨h3, h4⟩ := hprop r h2
        refine ⟨h3, ?_⟩
        rcases h4 with h4 | h4
        · left
          rw [h4]
        · right
          rw [h4]
    | none =>
      dsimp only
      constructor
      · apply pyStrip_ne_empty_of_mem (c := '#')
        · show '#' ∈ ("# No specific pattern found for: \"" ++ req ++ "\"").data
          rw [String.data_append, String.data_append]
          refine List.mem_append.mpr (Or.inl (List.mem_append.mpr (Or.inl ?_)))
          decide
        · decide
      · left
        rfl

/-- Witness for claim C7: a concrete free-text record has a non-empty
trimmed command and the configured default shell. -/
theorem exposed_records_wellformed_witness :
    parse_text_response "powershell" "Get-Date" =
      some ⟨"Get-Date", Json.str "", Json.str "powershell", Json.str ""⟩ ∧
    pyStrip (Suggestion.mk "Get-Date" (Json.str "") (Json.str "powershell")
        (Json.str "")).command ≠ "" ∧
    (Suggestion.mk "Get-Date" (Json.str "") (Json.str "powershell")
        (Json.str "")).shell = Json.str "powershell" := by
  have h := exposed_records_wellformed.2.1 "powershell" "Get-Date"
    ⟨"Get-Date", Json.str "", Json.str "powershell", Json.str ""⟩ rfl
  exact ⟨rfl, h.1, h.2⟩

/-- Claim C7 counterexample: a structured reply with shell `bash` yields a
record whose shell is neither `powershell` nor `python`, refuting the
shell-enum invariant on the structured path. -/
theorem structured_shell_unvalidated :
    validate_suggestion "powershell"
        (Json.obj [("command", Json.str "ls"), ("shell", Json.str "bash")]) =
      Except.ok (some ⟨"ls", Json.str "", Json.str "bash", Json.str ""⟩) ∧
    Json.str "bash" ≠ Json.str "powershell" ∧
    Json.str "bash" ≠ Json.str "python" := by
  refine ⟨rfl, ?_, ?_⟩ <;> (intro h; injection h with h; exact absurd h (by decide))

/-- Claim C8 (amended): decoding the canonical JSON encoding of a record
with the structured path reproduces the record, provided the command is
already trimmed and non-empty and the warning already agrees with the
destructive-fragment scan of the command. -/
theorem roundtrip_encode_decode (dft : String) (r : Suggestion)
    (h1 : pyStrip r.command = r.command) (h2 : r.command ≠ "")
    (h3 : (∃ d ∈ dangerous_commands, strContains (pyLower r.command) d = true) →
        r.warning = Json.str destructiveWarning) :
    validate_suggestion dft (encode_suggestion r) = Except.ok (some r) := by
  obtain ⟨rc, rd, rsh, rwn⟩ := r
  simp only at h1 h2 h3
  unfold encode_suggestion
  dsimp only
  rw [validate_obj_str dft
      [("command", Json.str rc), ("description", rd), ("shell", rsh), ("warning", rwn)]
      rc rfl rfl, h1, if_neg h2]
  by_cases hm : ∃ d ∈ dangerous_commands, strContains (pyLower rc) d = true
  · rw [warnFold_match _ _ _ hm, h3 hm]
    rfl
  · push_neg at hm
    rw [warnFold_no_match _ _ _ (fun d hd => by simpa using hm d hd)]
    rfl

/-- Witness for claim C8: a concrete benign record round-trips. -/
theorem roundtrip_encode_decode_witness :
    pyStrip "pip list" = "pip list" ∧
    validate_suggestion "powershell"
        (encode_suggestion
          ⟨"pip list", Json.str "List all installed Python packages",
           Json.str "python", Json.str ""⟩) =
      Except.ok (some
          ⟨"pip list", Json.str "List all installed Python packages",
           Json.str "python", Json.str ""⟩) :=
  ⟨by decide,
   roundtrip_encode_decode "powershell" _ (by decide) (by decide)
     (fun h => absurd h (by decide))⟩

/-- Claim C8 counterexample: the record with command `format` and empty
warning does not round-trip — decoding its encoding overwrites the warning
with the destructive-operation notice. -/
theorem roundtrip_breaks_on_dangerous :
    validate_suggestion "powershell"
        (encode_suggestion ⟨"format", Json.str "", Json.str "powershell", Json.str ""⟩) =
      Except.ok (some ⟨"format", Json.str "", Json.str "powershell",
        Json.str destructiveWarning⟩) ∧
    Json.str destructiveWarning ≠ Json.str "" := by
  refine ⟨rfl, ?_⟩
  intro h
  injection h with h
  exact absurd h (by decide)

/-- Claim C9: the free-text parse path is taken exactly on JSON decode
failure and its record is returned without the safety scan: every record it
produces carries an empty warning and the configured default shell, even
when the extracted command contains a deny-listed fragment. -/
theorem text_path_no_safety_scan (dft content : String) :
    parse_ai_response dft LoadsResult.decodeError content =
      Except.ok (parse_text_response dft content) ∧
    (∀ r, parse_text_response dft content = some r →
        r.warning = Json.str "" ∧ r.shell = Json.str dft) := by
  refine ⟨rfl, ?_⟩
  intro r h
  unfold parse_text_response at h
  by_cases hc : (parse_text_loop "" "" (pySplitNl content)).1 ≠ ""
  · rw [if_pos hc] at h
    injection h with h
    subst h
    exact ⟨rfl, rfl⟩
  · rw [if_neg hc] at h
    cases h

/-- Witness for claim C9: the deny-listed command `rm -rf /` extracted from
free text is returned with an empty warning. -/
theorem text_path_no_safety_scan_witness :
    parse_text_response "powershell" "rm -rf /" =
      some ⟨"rm -rf /", Json.str "", Json.str "powershell", Json.str ""⟩ ∧
    (Suggestion.mk "rm -rf /" (Json.str "") (Json.str "powershell")
        (Json.str "")).warning = Json.str "" ∧
    (Suggestion.mk "rm -rf /" (Json.str "") (Json.str "powershell")
        (Json.str "")).shell = Json.str "powershell" := by
  have h := (text_path_no_safety_scan "powershell" "rm -rf /").2
    ⟨"rm -rf /", Json.str "", Json.str "powershell", Json.str ""⟩ rfl
  exact ⟨rfl, h.1, h.2⟩

/-- Claim C10: the deny-list check is plain substring membership on the
lower-cased command, so any validated record whose command contains
`format` anywhere — destructive or not — has its warning overwritten with
the destructive-operation notice. -/
theorem format_always_warned (dft : String) (fields : List (String × Json)) (c : String)
    (hkey : pyHasKey fields "command" = true)
    (hcmd : pyGetD fields "command" (Json.str "") = Json.str c)
    (hne : pyStrip c ≠ "")
    (hfmt : strContains (pyLower (pyStrip c)) "format" = true) :
    ∃ r, validate_suggestion dft (Json.obj fields) = Except.ok (some r) ∧
      r.warning = Json.str destructiveWarning := by
  rw [validate_obj_str dft fields c hkey hcmd, if_neg hne]
  refine ⟨_, rfl, ?_⟩
  exact warnFold_match _ _ _ ⟨"format", by decide, hfmt⟩

/-- Witness for claim C10: the benign command `Get-Process | Format-Table`
receives the destructive-operation notice. -/
theorem format_always_warned_witness :
    strContains (pyLower (pyStrip "Get-Process | Format-Table")) "format" = true ∧
    ∃ r, validate_suggestion "powershell"
        (Json.obj [("command", Json.str "Get-Process | Format-Table")]) =
        Except.ok (some r) ∧
      r.warning = Json.str destructiveWarning :=
  ⟨by decide,
   format_always_warned "powershell" _ "Get-Process | Format-Table"
     (by decide) rfl (by decide) (by decide)⟩

